import Mathlib

/-!
Shallow embedding of `src/sshfs_mount/sshfs_mount.cpp` (multipass).

Strings are modelled as `List Char`.  A remote session is a function from the
command text to the resulting process observation (exit code, captured stdout
and stderr).  Every operation of the file is embedded as a function returning
an `R α`: the ordered list of commands executed on the session, the ordered
list of log messages emitted, and an `Except` value modelling C++ exception
propagation.  Thread lifecycle (`SshfsMount::stop` / destructor) is embedded
as a state machine over the joinable flag of the worker thread, with the
observable events (server stop signal, thread join) recorded in order.
-/

/-- Observation of an executed remote process: exit code, captured standard
output and captured standard error (`mp::SSHProcess`). -/
structure SSHProcess where
  exit_code : Nat
  stdout : List Char
  stderr : List Char
deriving DecidableEq

/-- A remote session (`mp::SSHSession`): `exec` maps a command to a process. -/
abbrev Session := List Char → SSHProcess

/-- The exceptions thrown by the translated code: `std::runtime_error` with the
captured stderr, `mp::SSHFSMissingError`, and the `std::invalid_argument`
thrown by `std::stoi` on non-numeric input (the identity-parse error). -/
inductive MountError where
  | RuntimeError (stderr : List Char)
  | SSHFSMissingError
  | InvalidArgument
deriving DecidableEq

instance {ε α : Type} [DecidableEq ε] [DecidableEq α] : DecidableEq (Except ε α) := fun x y =>
  match x, y with
  | .ok a, .ok b => if h : a = b then .isTrue (by rw [h]) else .isFalse (by simp [h])
  | .error e, .error f => if h : e = f then .isTrue (by rw [h]) else .isFalse (by simp [h])
  | .ok _, .error _ => .isFalse (by simp)
  | .error _, .ok _ => .isFalse (by simp)

/-- Effect record of running a piece of the translated code: the commands
executed on the session in order, the log messages emitted in order, and the
result (or the exception that escaped). -/
structure R (α : Type) where
  cmds : List (List Char)
  logs : List (List Char)
  res : Except MountError α
deriving DecidableEq

/-- Sequencing of effects: an escaping exception stops execution; otherwise
commands and logs accumulate in order. -/
def R.bind {α β : Type} (x : R α) (f : α → R β) : R β :=
  match x.res with
  | .error e => ⟨x.cmds, x.logs, .error e⟩
  | .ok a => ⟨x.cmds ++ (f a).cmds, x.logs ++ (f a).logs, (f a).res⟩

instance : Monad R where
  pure a := ⟨[], [], .ok a⟩
  bind := R.bind

/-- Execute one command on the session (`session.exec(cmd)`), recording it. -/
def execCmd (session : Session) (cmd : List Char) : R SSHProcess :=
  ⟨[cmd], [], .ok (session cmd)⟩

/-- Emit one log message (`mpl::log`). -/
def logMsg (m : List Char) : R Unit :=
  ⟨[], [m], .ok ()⟩

/-- Throw an exception. -/
def raiseErr {α : Type} (e : MountError) : R α :=
  ⟨[], [], .error e⟩

/-- Lift a pure fallible computation (such as `std::stoi`) into `R`. -/
def liftE {α : Type} : Except MountError α → R α
  | .ok a => ⟨[], [], .ok a⟩
  | .error e => ⟨[], [], .error e⟩

/-- The command run by `check_sshfs_exists`. -/
def whichCmd : List Char := "which sshfs".data

/-- The user-name query run by `set_owner_for`. -/
def idnuCmd : List Char := "id -nu".data

/-- The group-name query run by `set_owner_for`. -/
def idngCmd : List Char := "id -ng".data

/-- The default-uid query run by `make_sftp_server`. -/
def iduCmd : List Char := "id -u".data

/-- The default-gid query run by `make_sftp_server`. -/
def idgCmd : List Char := "id -g".data

/-- Translation of `run_cmd(session, cmd, error_handler)`: executes `cmd`, invokes the error
handler when the exit code is non-zero, then returns the captured standard
output (if the handler did not throw). -/
def run_command_with_handler (session : Session) (cmd : List Char)
    (error_handler : SSHProcess → R Unit) : R (List Char) := do
  let ssh_process ← execCmd session cmd
  if ssh_process.exit_code ≠ 0 then error_handler ssh_process else pure ()
  pure ssh_process.stdout

/-- The default error handler of `run_cmd`: throws `std::runtime_error` with
the process's captured standard error. -/
def runtime_error_handler (proc : SSHProcess) : R Unit :=
  raiseErr (.RuntimeError proc.stderr)

/-- The two-argument `run_cmd(session, cmd)` overload. -/
def run_command (session : Session) (cmd : List Char) : R (List Char) :=
  run_command_with_handler session cmd runtime_error_handler

/-- The warning logged when the sshfs presence check fails, carrying the
captured remote standard error. -/
def sshfs_warning (err : List Char) : List Char :=
  "Unable to determine if 'sshfs' is installed: ".data ++ err

/-- The error handler used by `check_sshfs_exists`: logs the warning, then
throws `mp::SSHFSMissingError`. -/
def sshfs_error_handler (proc : SSHProcess) : R Unit := do
  logMsg (sshfs_warning proc.stderr)
  raiseErr .SSHFSMissingError

/-- Translation of `check_sshfs_exists(session)`: runs `which sshfs` with the distinguished
error handler, discarding the output. -/
def check_sshfs_exists (session : Session) : R Unit := do
  let _ ← run_command_with_handler session whichCmd sshfs_error_handler
  pure ()

/-- The remote directory-creation command issued by `make_target_dir`
(`fmt::format("sudo mkdir -p \"{}\"", target)`). -/
def mkdirCmd (target : List Char) : List Char :=
  "sudo mkdir -p \"".data ++ target ++ "\"".data

/-- Translation of `make_target_dir(session, target)`. -/
def make_target_dir (session : Session) (target : List Char) : R Unit := do
  let _ ← run_command session (mkdirCmd target)
  pure ()

/-- The character normalization performed by `split_path` while accumulating:
`dir.push('\\' == c ? '/' : c)`. -/
def normChar (c : Char) : Char :=
  if c = '\\' then '/' else c

/-- The loop of `split_path`: `dir` is the accumulated string; on a separator
following a non-empty accumulation the current `dir` is emitted; the final
accumulated string is emitted at the end. -/
def split_path_go : List Char → List Char → List (List Char)
  | [], dir => [dir]
  | c :: cs, dir =>
    (if (c = '\\' ∨ c = '/') ∧ dir ≠ [] then [dir] else []) ++
      split_path_go cs (dir ++ [normChar c])

/-- Translation of `split_path(path, splitting)`: split a path string in pieces. -/
def split_path (path : List Char) : List (List Char) :=
  split_path_go path []

/-- C `isspace` over the default locale, as used by `std::stoi` to skip
leading whitespace and by trimming. -/
def isspace (c : Char) : Bool :=
  c == ' ' || c == '\t' || c == '\n' || c == '\x0b' || c == '\x0c' || c == '\r'

/-- Modelled from the spec: `mp::utils::trim_end` (its definition is not in
`src/`); the spec says identity outputs have trailing whitespace/newline
trimmed. -/
def trim_end (s : List Char) : List Char :=
  (s.reverse.dropWhile isspace).reverse

/-- The remote ownership-change command issued by `set_owner_for`
(`fmt::format("sudo chown {}:{} \"{}\"", user, group, target)`). -/
def chownCmd (user group target : List Char) : List Char :=
  "sudo chown ".data ++ user ++ ":".data ++ group ++ " \"".data ++ target ++ "\"".data

/-- Translation of `set_owner_for(session, target)`: queries the remote user and group names,
trims them, and issues the ownership-change command. -/
def set_owner_for (session : Session) (target : List Char) : R Unit := do
  let vm_user ← run_command session idnuCmd
  let vm_group ← run_command session idngCmd
  let _ ← run_command session (chownCmd (trim_end vm_user) (trim_end vm_group) target)
  pure ()

/-- Decimal value of a digit string, accumulated left to right as `std::stoi`
does. -/
def digitsToNat (ds : List Char) : Nat :=
  ds.foldl (fun a c => a * 10 + (c.toNat - 48)) 0

/-- Translation of `std::stoi`: skip leading whitespace, accept an optional sign, parse the
longest leading run of decimal digits; throw `std::invalid_argument` when
there is none; trailing characters are ignored.  (Overflow is not modelled:
the result is an unbounded integer.) -/
def stoi (s : List Char) : Except MountError Int :=
  let s1 := s.dropWhile isspace
  let s2 := if s1.head? = some '-' ∨ s1.head? = some '+' then s1.tail else s1
  let ds := s2.takeWhile Char.isDigit
  if ds = [] then .error .InvalidArgument
  else if s1.head? = some '-' then .ok (-(digitsToNat ds : Int))
  else .ok ((digitsToNat ds : Int))

/-- The value constructed at the end of `make_sftp_server` and handed to the
`mp::SftpServer` constructor (the moved-in session is not part of the
observable value). -/
structure SftpServer where
  source : List Char
  target : List Char
  gid_map : List (Int × Int)
  uid_map : List (Int × Int)
  default_uid : Int
  default_gid : Int
deriving DecidableEq

/-- The provisioning loop of `make_sftp_server`: for each piece of the split
target path, if creation is already needed or the piece does not exist on the
local filesystem `fs` (`std::filesystem::exists`), create the directory
remotely and set its ownership, and mark that all later pieces need creation. -/
def provision_loop (session : Session) (fs : List Char → Bool) :
    List (List Char) → Bool → R Unit
  | [], _ => pure ()
  | seg :: rest, needs_create =>
    if needs_create || !fs seg then do
      make_target_dir session seg
      set_owner_for session seg
      provision_loop session fs rest true
    else
      provision_loop session fs rest needs_create

/-- The entry debug log of `make_sftp_server` (file/line metadata omitted). -/
def entryMsg (source target : List Char) : List Char :=
  "make_sftp_server(source = ".data ++ source ++ ", target = ".data ++ target ++ ", ...): ".data

/-- The debug log of the captured `id -u` output. -/
def iduMsg (out : List Char) : List Char :=
  "`id -u` = ".data ++ out

/-- The debug log of the captured `id -g` output. -/
def idgMsg (out : List Char) : List Char :=
  "`id -g` = ".data ++ out

/-- Translation of `make_sftp_server(session, source, target, gid_map, uid_map)`, with the
local filesystem existence check `std::filesystem::exists` abstracted as the
predicate `fs`. -/
def make_sftp_server (session : Session) (fs : List Char → Bool)
    (source target : List Char) (gid_map uid_map : List (Int × Int)) : R SftpServer := do
  logMsg (entryMsg source target)
  check_sshfs_exists session
  let splitting := split_path target
  provision_loop session fs splitting false
  let output ← run_command session iduCmd
  logMsg (iduMsg output)
  let default_uid ← liftE (stoi output)
  let output ← run_command session idgCmd
  logMsg (idgMsg output)
  let default_gid ← liftE (stoi output)
  pure ⟨source, target, gid_map, uid_map, default_uid, default_gid⟩

/-- The pieces the provisioning loop decides to create: exactly the loop's
branch condition (`needs_create || !exists(seg)`), with the sticky flag. -/
def createdSegs (fs : List Char → Bool) : List (List Char) → Bool → List (List Char)
  | [], _ => []
  | seg :: rest, needs_create =>
    if needs_create || !fs seg then seg :: createdSegs fs rest true
    else createdSegs fs rest needs_create

/-- The per-piece creation decision of the provisioning loop, as a flag list
aligned with the pieces. -/
def createdFlags (fs : List Char → Bool) : List (List Char) → Bool → List Bool
  | [], _ => []
  | seg :: rest, needs_create =>
    let c := needs_create || !fs seg
    c :: createdFlags fs rest c

/-- The block of commands the loop issues for one created piece: directory
creation, the two name queries, then the ownership change. -/
def provCmds (session : Session) (seg : List Char) : List (List Char) :=
  [mkdirCmd seg, idnuCmd, idngCmd,
   chownCmd (trim_end (session idnuCmd).stdout) (trim_end (session idngCmd).stdout) seg]

/-- Recognizer for remote directory-creation commands. -/
def is_mkdir_cmd (c : List Char) : Bool :=
  "sudo mkdir -p \"".data.isPrefixOf c

/-- A session on which every command succeeds (exit code zero). -/
def ok_session (s : Session) : Prop :=
  ∀ c, (s c).exit_code = 0

/-- Observable state of an `mp::SshfsMount`: whether the sftp server has been
told to stop, and whether the worker thread is still joinable. -/
structure SshfsMountState where
  server_stop_requested : Bool
  thread_joinable : Bool
deriving DecidableEq

/-- Observable lifecycle events of `stop()`: signalling the server, joining
the worker thread. -/
inductive StopEvent where
  | serverStop
  | threadJoin
deriving DecidableEq

/-- Translation of `mp::SshfsMount::stop()`: signal the sftp server to terminate, then join
the worker thread if (and only if) it is joinable. -/
def SshfsMount.stop (s : SshfsMountState) : SshfsMountState × List StopEvent :=
  if s.thread_joinable then (⟨true, false⟩, [.serverStop, .threadJoin])
  else (⟨true, s.thread_joinable⟩, [.serverStop])

/-- Translation of `mp::SshfsMount::~SshfsMount()`: its entire body is `stop()`. -/
def SshfsMount.destructor (s : SshfsMountState) : SshfsMountState × List StopEvent :=
  SshfsMount.stop s

/-- Canonical remote outputs used by concrete instantiations: uid 1000,
gid 1001, user and group name `ubuntu`. -/
def stdOutput (c : List Char) : List Char :=
  if c = iduCmd then "1000\n".data
  else if c = idgCmd then "1001\n".data
  else if c = idnuCmd then "ubuntu\n".data
  else if c = idngCmd then "ubuntu\n".data
  else []

/-- A session on which every command succeeds, with `stdOutput` outputs. -/
def stdSession : Session := fun c => ⟨0, stdOutput c, []⟩

/-- A second all-success session with different identity outputs (user name
`root`, uid 0). -/
def altOutput (c : List Char) : List Char :=
  if c = iduCmd then "0\n".data
  else if c = idgCmd then "0\n".data
  else if c = idnuCmd then "root\n".data
  else if c = idngCmd then "root\n".data
  else []

/-- A second all-success session, used to vary the session while fixing the
local filesystem. -/
def altSession : Session := fun c => ⟨0, altOutput c, []⟩

/-- An all-success session whose `id -u` output is not numeric. -/
def badIdSession : Session := fun c =>
  ⟨0, if c = iduCmd then "abc".data else stdOutput c, []⟩

/-- A session on which every command fails with exit code 1 and stderr
`boom`. -/
def failSession : Session := fun _ => ⟨1, "out".data, "boom".data⟩

/-- A local filesystem on which no path exists. -/
def noFs : List Char → Bool := fun _ => false

/-- A local filesystem on which every path exists. -/
def allFs : List Char → Bool := fun _ => true

/-- A local filesystem on which exactly `/mnt` exists. -/
def mntFs : List Char → Bool := fun s => s == "/mnt".data

@[simp]
theorem R.bind_eq {α β : Type} (x : R α) (f : α → R β) : (x >>= f) = R.bind x f := rfl

@[simp]
theorem R.pure_eq {α : Type} (a : α) : (pure a : R α) = ⟨[], [], .ok a⟩ := rfl

@[simp]
theorem R.bind_mk_ok {α β : Type} (c l : List (List Char)) (a : α) (f : α → R β) :
    R.bind ⟨c, l, .ok a⟩ f = ⟨c ++ (f a).cmds, l ++ (f a).logs, (f a).res⟩ := rfl

@[simp]
theorem R.bind_mk_error {α β : Type} (c l : List (List Char)) (e : MountError) (f : α → R β) :
    R.bind ⟨c, l, .error e⟩ f = ⟨c, l, .error e⟩ := rfl

theorem run_command_with_handler_exit0 (session : Session) (cmd : List Char)
    (handler : SSHProcess → R Unit) (h : (session cmd).exit_code = 0) :
    run_command_with_handler session cmd handler = ⟨[cmd], [], .ok (session cmd).stdout⟩ := by
  unfold run_command_with_handler execCmd
  simp [h]

theorem run_command_exit0 (session : Session) (cmd : List Char)
    (h : (session cmd).exit_code = 0) :
    run_command session cmd = ⟨[cmd], [], .ok (session cmd).stdout⟩ :=
  run_command_with_handler_exit0 session cmd runtime_error_handler h

/-- Claim C8: `run_cmd` returns the captured standard output exactly when the
exit status is zero; on non-zero exit status it invokes the supplied error
handler on the process, and the default handler fails with a runtime error
carrying the captured standard error. -/
theorem run_command_contract (session : Session) (cmd : List Char)
    (handler : SSHProcess → R Unit) :
    ((session cmd).exit_code = 0 →
      run_command_with_handler session cmd handler = ⟨[cmd], [], .ok (session cmd).stdout⟩) ∧
    ((session cmd).exit_code ≠ 0 →
      run_command_with_handler session cmd handler =
        ⟨cmd :: (handler (session cmd)).cmds, (handler (session cmd)).logs,
         match (handler (session cmd)).res with
         | .error e => .error e
         | .ok _ => .ok (session cmd).stdout⟩) ∧
    ((session cmd).exit_code ≠ 0 →
      run_command session cmd = ⟨[cmd], [], .error (.RuntimeError (session cmd).stderr)⟩) := by
  refine ⟨fun h => run_command_with_handler_exit0 session cmd handler h, fun h => ?_, fun h => ?_⟩
  · unfold run_command_with_handler execCmd
    simp [h]
    cases hr : (handler (session cmd)).res with
    | ok a => simp [R.bind, hr]
    | error e => simp [R.bind, hr]
  · unfold run_command run_command_with_handler execCmd runtime_error_handler raiseErr
    simp [h, R.bind]

/-- Claim C8 witness at concrete inputs: an all-failing session with the
distinguished handler and with the default handler, and a succeeding one. -/
theorem run_command_contract_witness :
    ((failSession "true".data).exit_code ≠ 0 ∧
      run_command_with_handler failSession "true".data sshfs_error_handler =
        ⟨"true".data :: (sshfs_error_handler (failSession "true".data)).cmds,
         (sshfs_error_handler (failSession "true".data)).logs,
         match (sshfs_error_handler (failSession "true".data)).res with
         | .error e => .error e
         | .ok _ => .ok (failSession "true".data).stdout⟩ ∧
      run_command failSession "true".data = ⟨["true".data], [], .error (.RuntimeError "boom".data)⟩) ∧
    ((stdSession whichCmd).exit_code = 0 ∧
      run_command_with_handler stdSession whichCmd runtime_error_handler =
        ⟨[whichCmd], [], .ok (stdSession whichCmd).stdout⟩) :=
  ⟨⟨by decide,
    (run_command_contract failSession "true".data sshfs_error_handler).2.1 (by decide),
    (run_command_contract failSession "true".data sshfs_error_handler).2.2 (by decide)⟩,
   ⟨rfl, (run_command_contract stdSession whichCmd runtime_error_handler).1 rfl⟩⟩

/-- Claim C1: destroying a bridge is exactly an invocation of `stop()`: the
server is signalled first, the worker is joined exactly when it was joinable,
and after the destructor returns the worker is no longer joinable (joined). -/
theorem destructor_joins_worker (s : SshfsMountState) :
    SshfsMount.destructor s = SshfsMount.stop s ∧
    (SshfsMount.destructor s).1.thread_joinable = false ∧
    (SshfsMount.destructor s).1.server_stop_requested = true ∧
    (SshfsMount.destructor s).2 =
      .serverStop :: (if s.thread_joinable then [.threadJoin] else []) := by
  unfold SshfsMount.destructor SshfsMount.stop
  cases h : s.thread_joinable <;> simp [h]

/-- Claim C9: `stop()` is idempotent: a second call leaves the state unchanged
and does not attempt to join the already-joined worker. -/
theorem stop_idempotent (s : SshfsMountState) :
    SshfsMount.stop (SshfsMount.stop s).1 = ((SshfsMount.stop s).1, [.serverStop]) ∧
    StopEvent.threadJoin ∉ (SshfsMount.stop (SshfsMount.stop s).1).2 := by
  unfold SshfsMount.stop
  cases h : s.thread_joinable <;> simp [h]

theorem check_sshfs_exists_fail (session : Session) (h : (session whichCmd).exit_code ≠ 0) :
    check_sshfs_exists session =
      ⟨[whichCmd], [sshfs_warning (session whichCmd).stderr], .error .SSHFSMissingError⟩ := by
  unfold check_sshfs_exists run_command_with_handler execCmd sshfs_error_handler logMsg raiseErr
  simp [h, R.bind]

/-- Claim C5: if the sshfs preflight check exits non-zero, bridge construction
fails with `SSHFSMissingError` after logging a warning carrying the captured
remote standard error, and the only command ever issued on the session is the
preflight itself: no directory creation and no ownership change happens. -/
theorem preflight_failure (session : Session) (fs : List Char → Bool)
    (source target : List Char) (gid_map uid_map : List (Int × Int))
    (h : (session whichCmd).exit_code ≠ 0) :
    make_sftp_server session fs source target gid_map uid_map =
      ⟨[whichCmd], [entryMsg source target, sshfs_warning (session whichCmd).stderr],
       .error .SSHFSMissingError⟩ := by
  unfold make_sftp_server logMsg
  simp [check_sshfs_exists_fail session h, R.bind]

/-- Claim C5 witness: the all-failing session at a concrete target. -/
theorem preflight_failure_witness :
    (failSession whichCmd).exit_code ≠ 0 ∧
    make_sftp_server failSession noFs "src".data "/mnt/data".data [] [] =
      ⟨[whichCmd], [entryMsg "src".data "/mnt/data".data, sshfs_warning "boom".data],
       .error .SSHFSMissingError⟩ :=
  ⟨by decide, preflight_failure failSession noFs "src".data "/mnt/data".data [] [] (by decide)⟩

theorem split_path_go_ne_nil : ∀ (cs dir : List Char), split_path_go cs dir ≠ []
  | [], dir => by simp [split_path_go]
  | c :: cs, dir => by
    unfold split_path_go
    intro h
    rcases List.append_eq_nil.mp h with ⟨h1, h2⟩
    exact split_path_go_ne_nil cs (dir ++ [normChar c]) h2

theorem split_path_go_mem_extends : ∀ (cs dir s : List Char),
    s ∈ split_path_go cs dir → dir <+: s
  | [], dir, s, h => by
    simp [split_path_go] at h
    subst h
    exact ⟨[], List.append_nil _⟩
  | c :: cs, dir, s, h => by
    unfold split_path_go at h
    rcases List.mem_append.mp h with h1 | h2
    · by_cases hc : (c = '\\' ∨ c = '/') ∧ dir ≠ []
      · rw [if_pos hc] at h1
        simp at h1
        subst h1
        exact ⟨[], List.append_nil s⟩
      · rw [if_neg hc] at h1
        simp at h1
    · exact List.IsPrefix.trans ⟨[normChar c], rfl⟩
        (split_path_go_mem_extends cs (dir ++ [normChar c]) s h2)

theorem split_path_go_getLast : ∀ (cs dir : List Char),
    (split_path_go cs dir).getLast? = some (dir ++ cs.map normChar)
  | [], dir => by simp [split_path_go]
  | c :: cs, dir => by
    unfold split_path_go
    rw [List.getLast?_append_of_ne_nil _ (split_path_go_ne_nil cs (dir ++ [normChar c])),
      split_path_go_getLast cs (dir ++ [normChar c])]
    simp

theorem split_path_go_chain : ∀ (cs dir : List Char),
    List.Chain' (· <+: ·) (split_path_go cs dir)
  | [], dir => by simp [split_path_go]
  | c :: cs, dir => by
    unfold split_path_go
    by_cases hc : (c = '\\' ∨ c = '/') ∧ dir ≠ []
    · rw [if_pos hc]
      rw [List.singleton_append, List.chain'_cons']
      refine ⟨fun y hy => ?_, split_path_go_chain cs (dir ++ [normChar c])⟩
      exact List.IsPrefix.trans ⟨[normChar c], rfl⟩
        (split_path_go_mem_extends cs (dir ++ [normChar c]) y (List.mem_of_mem_head? hy))
    · rw [if_neg hc, List.nil_append]
      exact split_path_go_chain cs (dir ++ [normChar c])

theorem split_path_go_mem_le : ∀ (cs dir s : List Char),
    s ∈ split_path_go cs dir → s <+: dir ++ cs.map normChar
  | [], dir, s, h => by
    simp [split_path_go] at h
    subst h
    exact ⟨[], by simp⟩
  | c :: cs, dir, s, h => by
    unfold split_path_go at h
    rcases List.mem_append.mp h with h1 | h2
    · by_cases hc : (c = '\\' ∨ c = '/') ∧ dir ≠ []
      · rw [if_pos hc] at h1
        simp at h1
        subst h1
        exact ⟨normChar c :: cs.map normChar, by simp⟩
      · rw [if_neg hc] at h1
        simp at h1
    · have ih := split_path_go_mem_le cs (dir ++ [normChar c]) s h2
      simpa [List.append_assoc] using ih

/-- Claim C4: the segments produced by `split_path` form a chain in which each
segment is a prefix of the next (hence lengths are non-decreasing), and the
final segment is the full input path with every backslash replaced by a
forward slash. -/
theorem split_path_invariants (path : List Char) :
    List.Chain' (· <+: ·) (split_path path) ∧
    List.Chain' (fun a b => a.length ≤ b.length) (split_path path) ∧
    (split_path path).getLast? = some (path.map normChar) := by
  refine ⟨split_path_go_chain path [], ?_, ?_⟩
  · exact (split_path_go_chain path []).imp (fun _ _ h => h.length_le)
  · simpa using split_path_go_getLast path []

theorem run_command_ok_any (session : Session) (hok : ok_session session) (cmd : List Char) :
    run_command session cmd = ⟨[cmd], [], .ok (session cmd).stdout⟩ :=
  run_command_exit0 session cmd (hok cmd)

theorem make_target_dir_ok (session : Session) (hok : ok_session session) (t : List Char) :
    make_target_dir session t = ⟨[mkdirCmd t], [], .ok ()⟩ := by
  unfold make_target_dir
  simp [run_command_ok_any session hok]

theorem set_owner_for_ok (session : Session) (hok : ok_session session) (t : List Char) :
    set_owner_for session t =
      ⟨[idnuCmd, idngCmd,
        chownCmd (trim_end (session idnuCmd).stdout) (trim_end (session idngCmd).stdout) t],
       [], .ok ()⟩ := by
  unfold set_owner_for
  simp [run_command_ok_any session hok]

theorem provision_loop_ok (session : Session) (fs : List Char → Bool)
    (hok : ok_session session) :
    ∀ (segs : List (List Char)) (nc : Bool),
    provision_loop session fs segs nc =
      ⟨((createdSegs fs segs nc).map (provCmds session)).flatten, [], .ok ()⟩
  | [], nc => by simp [provision_loop, createdSegs]
  | seg :: rest, nc => by
    unfold provision_loop createdSegs
    by_cases h : (nc || !fs seg) = true
    · rw [if_pos h, if_pos h]
      simp [make_target_dir_ok session hok, set_owner_for_ok session hok,
        provision_loop_ok session fs hok rest true, provCmds]
    · rw [if_neg h, if_neg h]
      exact provision_loop_ok session fs hok rest nc

theorem createdSegs_all_true (fs : List Char → Bool) :
    ∀ segs : List (List Char), createdSegs fs segs true = segs
  | [] => by simp [createdSegs]
  | seg :: rest => by simp [createdSegs, createdSegs_all_true fs rest]

theorem createdSegs_filter (fs : List Char → Bool) :
    ∀ segs : List (List Char),
    List.Pairwise (fun a b => fs b = true → fs a = true) segs →
    createdSegs fs segs false = segs.filter (fun s => !fs s)
  | [], _ => by simp [createdSegs]
  | seg :: rest, hpw => by
    have hrest := (List.pairwise_cons.mp hpw).2
    have hhead := (List.pairwise_cons.mp hpw).1
    unfold createdSegs
    by_cases h : fs seg = true
    · simp [h, createdSegs_filter fs rest hrest]
    · have hall : ∀ b ∈ rest, fs b = false := by
        intro b hb
        cases hfb : fs b with
        | true => exact absurd (hhead b hb hfb) h
        | false => rfl
      have hfil : rest.filter (fun s => !fs s) = rest := by
        rw [List.filter_eq_self]
        intro b hb
        simp [hall b hb]
      simp [h, createdSegs_all_true, hfil]

theorem createdSegs_subset (fs : List Char → Bool) :
    ∀ (segs : List (List Char)) (nc : Bool) (s : List Char),
    s ∈ createdSegs fs segs nc → s ∈ segs
  | [], nc, s, h => by simp [createdSegs] at h
  | seg :: rest, nc, s, h => by
    unfold createdSegs at h
    by_cases hc : (nc || !fs seg) = true
    · rw [if_pos hc] at h
      rcases List.mem_cons.mp h with h1 | h2
      · exact h1 ▸ List.mem_cons_self seg rest
      · exact List.mem_cons_of_mem seg (createdSegs_subset fs rest true s h2)
    · rw [if_neg hc] at h
      exact List.mem_cons_of_mem seg (createdSegs_subset fs rest nc s h)

theorem createdFlags_eq (fs : List Char → Bool) :
    ∀ (segs : List (List Char)) (nc : Bool),
    createdFlags fs segs nc =
      (List.range segs.length).map (fun i => nc || !((segs.take (i + 1)).all fs))
  | [], nc => by simp [createdFlags]
  | seg :: rest, nc => by
    show (nc || !fs seg) :: createdFlags fs rest (nc || !fs seg) = _
    rw [createdFlags_eq fs rest (nc || !fs seg)]
    rw [List.length_cons, List.range_succ_eq_map, List.map_cons, List.map_map]
    refine congrArg₂ _ ?_ ?_
    · simp
    · refine List.map_congr_left (fun i _ => ?_)
      simp [Function.comp, List.all_cons, Bool.or_assoc]

theorem isPrefixOf_append_self : ∀ (p t : List Char), p.isPrefixOf (p ++ t) = true
  | [], _ => by simp [List.isPrefixOf]
  | c :: p, t => by simp [List.isPrefixOf, isPrefixOf_append_self p t]

theorem is_mkdir_cmd_mkdir (s : List Char) : is_mkdir_cmd (mkdirCmd s) = true := by
  unfold is_mkdir_cmd mkdirCmd
  rw [List.append_assoc]
  exact isPrefixOf_append_self _ _

theorem mkdir_marker_not_on_chown (rest : List Char) :
    "sudo mkdir -p \"".data.isPrefixOf ("sudo chown ".data ++ rest) = false := rfl

theorem is_mkdir_cmd_chown (u g t : List Char) : is_mkdir_cmd (chownCmd u g t) = false := by
  unfold is_mkdir_cmd chownCmd
  simp only [List.append_assoc]
  exact mkdir_marker_not_on_chown _

theorem filter_mkdir_provCmds (session : Session) (s : List Char) :
    (provCmds session s).filter is_mkdir_cmd = [mkdirCmd s] := by
  have h1 : is_mkdir_cmd idnuCmd = false := by decide
  have h2 : is_mkdir_cmd idngCmd = false := by decide
  simp [provCmds, List.filter_cons, is_mkdir_cmd_mkdir, is_mkdir_cmd_chown, h1, h2]

theorem filter_mkdir_flatten (session : Session) :
    ∀ l : List (List Char),
    ((l.map (provCmds session)).flatten).filter is_mkdir_cmd = l.map mkdirCmd
  | [] => rfl
  | s :: rest => by
    simp only [List.map_cons, List.flatten_cons, List.filter_append,
      filter_mkdir_provCmds, filter_mkdir_flatten session rest, List.map_cons]
    rfl

theorem check_sshfs_exists_ok (session : Session) (h : (session whichCmd).exit_code = 0) :
    check_sshfs_exists session = ⟨[whichCmd], [], .ok ()⟩ := by
  unfold check_sshfs_exists
  simp [run_command_with_handler_exit0 session whichCmd sshfs_error_handler h]

theorem make_sftp_server_ok (session : Session) (fs : List Char → Bool)
    (source target : List Char) (gid_map uid_map : List (Int × Int)) (du dg : Int)
    (hok : ok_session session)
    (hu : stoi (session iduCmd).stdout = .ok du)
    (hg : stoi (session idgCmd).stdout = .ok dg) :
    make_sftp_server session fs source target gid_map uid_map =
      ⟨whichCmd :: ((createdSegs fs (split_path target) false).map (provCmds session)).flatten
          ++ [iduCmd, idgCmd],
       [entryMsg source target, iduMsg (session iduCmd).stdout, idgMsg (session idgCmd).stdout],
       .ok ⟨source, target, gid_map, uid_map, du, dg⟩⟩ := by
  unfold make_sftp_server logMsg
  simp [check_sshfs_exists_ok session (hok whichCmd),
    provision_loop_ok session fs hok, run_command_ok_any session hok, hu, hg, liftE]

theorem make_sftp_server_uid_fail (session : Session) (fs : List Char → Bool)
    (source target : List Char) (gid_map uid_map : List (Int × Int)) (e : MountError)
    (hok : ok_session session)
    (he : stoi (session iduCmd).stdout = .error e) :
    make_sftp_server session fs source target gid_map uid_map =
      ⟨whichCmd :: ((createdSegs fs (split_path target) false).map (provCmds session)).flatten
          ++ [iduCmd],
       [entryMsg source target, iduMsg (session iduCmd).stdout],
       .error e⟩ := by
  unfold make_sftp_server logMsg
  simp [check_sshfs_exists_ok session (hok whichCmd),
    provision_loop_ok session fs hok, run_command_ok_any session hok, he, liftE]

theorem mkdirCmd_head (s : List Char) : (mkdirCmd s).head? = some 's' := rfl

theorem chownCmd_head (u g t : List Char) : (chownCmd u g t).head? = some 's' := rfl

theorem mkdirCmd_ne_idu (s : List Char) : mkdirCmd s ≠ iduCmd := by
  intro h
  have h2 := congrArg List.head? h
  rw [mkdirCmd_head] at h2
  exact absurd h2 (by decide)

theorem mkdirCmd_ne_idg (s : List Char) : mkdirCmd s ≠ idgCmd := by
  intro h
  have h2 := congrArg List.head? h
  rw [mkdirCmd_head] at h2
  exact absurd h2 (by decide)

theorem chownCmd_ne_idu (u g t : List Char) : chownCmd u g t ≠ iduCmd := by
  intro h
  have h2 := congrArg List.head? h
  rw [chownCmd_head] at h2
  exact absurd h2 (by decide)

theorem chownCmd_ne_idg (u g t : List Char) : chownCmd u g t ≠ idgCmd := by
  intro h
  have h2 := congrArg List.head? h
  rw [chownCmd_head] at h2
  exact absurd h2 (by decide)

theorem idu_not_mem_provCmds (session : Session) (s : List Char) :
    iduCmd ∉ provCmds session s := by
  intro h
  rcases List.mem_cons.mp h with h1 | h
  · exact mkdirCmd_ne_idu s h1.symm
  rcases List.mem_cons.mp h with h1 | h
  · exact absurd h1 (by decide)
  rcases List.mem_cons.mp h with h1 | h
  · exact absurd h1 (by decide)
  rcases List.mem_cons.mp h with h1 | h
  · exact chownCmd_ne_idu _ _ _ h1.symm
  · exact absurd h (by simp)

theorem idg_not_mem_provCmds (session : Session) (s : List Char) :
    idgCmd ∉ provCmds session s := by
  intro h
  rcases List.mem_cons.mp h with h1 | h
  · exact mkdirCmd_ne_idg s h1.symm
  rcases List.mem_cons.mp h with h1 | h
  · exact absurd h1 (by decide)
  rcases List.mem_cons.mp h with h1 | h
  · exact absurd h1 (by decide)
  rcases List.mem_cons.mp h with h1 | h
  · exact chownCmd_ne_idg _ _ _ h1.symm
  · exact absurd h (by simp)

theorem idu_not_mem_flatten (session : Session) (l : List (List Char)) :
    iduCmd ∉ ((l.map (provCmds session)).flatten) := by
  intro h
  rcases List.mem_flatten.mp h with ⟨block, hb, hc⟩
  rcases List.mem_map.mp hb with ⟨s, _, rfl⟩
  exact idu_not_mem_provCmds session s hc

theorem idg_not_mem_flatten (session : Session) (l : List (List Char)) :
    idgCmd ∉ ((l.map (provCmds session)).flatten) := by
  intro h
  rcases List.mem_flatten.mp h with ⟨block, hb, hc⟩
  rcases List.mem_map.mp hb with ⟨s, _, rfl⟩
  exact idg_not_mem_provCmds session s hc

theorem toIsPrefixOf {a b : List Char} (h : a <+: b) : a.isPrefixOf b = true := by
  rcases h with ⟨t, rfl⟩
  exact isPrefixOf_append_self a t

/-- Claim C2: over any all-success session, and any local filesystem on which
an existing segment's ancestors all exist (`Pairwise` closure over the
segments), the provisioning loop creates exactly the segments of the target
that do not exist (the directory-creation commands it issues are precisely
those for the missing segments, in order), every created segment is a prefix
of the normalized target (never beyond the target), and if every segment
exists the loop issues no command at all. -/
theorem provisioning_exactly_missing (session : Session) (fs : List Char → Bool)
    (target : List Char)
    (hok : ok_session session)
    (hcl : List.Pairwise (fun a b => fs b = true → fs a = true) (split_path target)) :
    ((provision_loop session fs (split_path target) false).cmds.filter is_mkdir_cmd
        = ((split_path target).filter (fun s => !fs s)).map mkdirCmd) ∧
    ((createdSegs fs (split_path target) false).all
        (fun s => s.isPrefixOf (target.map normChar)) = true) ∧
    ((split_path target).all fs = true →
      (provision_loop session fs (split_path target) false).cmds = []) := by
  refine ⟨?_, ?_, ?_⟩
  · rw [provision_loop_ok session fs hok]
    show (((createdSegs fs (split_path target) false).map (provCmds session)).flatten).filter
        is_mkdir_cmd = _
    rw [filter_mkdir_flatten, createdSegs_filter fs (split_path target) hcl]
  · rw [List.all_eq_true]
    intro s hs
    refine toIsPrefixOf ?_
    exact split_path_go_mem_le target [] s
      (createdSegs_subset fs (split_path target) false s hs)
  · intro hall
    rw [provision_loop_ok session fs hok]
    show (((createdSegs fs (split_path target) false).map (provCmds session)).flatten) = []
    rw [createdSegs_filter fs (split_path target) hcl]
    have hnil : (split_path target).filter (fun s => !fs s) = [] := by
      rw [List.filter_eq_nil_iff]
      intro a ha
      simp [List.all_eq_true.mp hall a ha]
    rw [hnil]
    rfl

/-- Claim C2 witness: target `/mnt/data`; with only `/mnt` existing, exactly
`/mnt/data` is created; with everything existing, no command is issued. -/
theorem provisioning_exactly_missing_witness :
    ok_session stdSession ∧
    List.Pairwise (fun a b => mntFs b = true → mntFs a = true) (split_path "/mnt/data".data) ∧
    ((provision_loop stdSession mntFs (split_path "/mnt/data".data) false).cmds.filter
        is_mkdir_cmd
      = (((split_path "/mnt/data".data).filter (fun s => !mntFs s)).map mkdirCmd)) ∧
    ((createdSegs mntFs (split_path "/mnt/data".data) false).all
      (fun s => s.isPrefixOf ("/mnt/data".data.map normChar)) = true) ∧
    (split_path "/mnt/data".data).all allFs = true ∧
    (provision_loop stdSession allFs (split_path "/mnt/data".data) false).cmds = [] :=
  ⟨fun _ => rfl, by decide,
   (provisioning_exactly_missing stdSession mntFs "/mnt/data".data (fun _ => rfl) (by decide)).1,
   (provisioning_exactly_missing stdSession mntFs "/mnt/data".data (fun _ => rfl) (by decide)).2.1,
   by decide,
   (provisioning_exactly_missing stdSession allFs "/mnt/data".data (fun _ => rfl)
     (by decide)).2.2 (by decide)⟩

/-- Claim C3: the provisioning walk is in segment order with a sticky
creation flag: the per-segment creation decision is exactly "some segment up
to and including this one is missing" (so a segment is skipped only when it
and all earlier segments exist, and once one is missing all later ones are
created); for each created segment the trace is the block
mkdir-names-chown, blocks concatenated in segment order; on `/mnt/data` with
nothing existing the full command trace is mkdir `/mnt`, chown `/mnt`, mkdir
`/mnt/data`, chown `/mnt/data` (with the name queries inside each block). -/
theorem provisioning_walk_order (session : Session) (fs : List Char → Bool)
    (target : List Char) (hok : ok_session session) :
    (createdFlags fs (split_path target) false =
      (List.range (split_path target).length).map
        (fun i => !(((split_path target).take (i + 1)).all fs))) ∧
    ((provision_loop session fs (split_path target) false).cmds =
      ((createdSegs fs (split_path target) false).map (provCmds session)).flatten) ∧
    ((make_sftp_server stdSession noFs "src".data "/mnt/data".data [] []).cmds =
      [whichCmd,
       mkdirCmd "/mnt".data, idnuCmd, idngCmd,
       chownCmd "ubuntu".data "ubuntu".data "/mnt".data,
       mkdirCmd "/mnt/data".data, idnuCmd, idngCmd,
       chownCmd "ubuntu".data "ubuntu".data "/mnt/data".data,
       iduCmd, idgCmd]) := by
  refine ⟨?_, ?_, ?_⟩
  · rw [createdFlags_eq]
    exact List.map_congr_left (fun i _ => by simp)
  · rw [provision_loop_ok session fs hok]
  · decide

/-- Claim C3 witness: the walk-order facts at the `/mnt/data` example. -/
theorem provisioning_walk_order_witness :
    ok_session stdSession ∧
    (createdFlags noFs (split_path "/mnt/data".data) false =
      (List.range (split_path "/mnt/data".data).length).map
        (fun i => !(((split_path "/mnt/data".data).take (i + 1)).all noFs))) ∧
    ((provision_loop stdSession noFs (split_path "/mnt/data".data) false).cmds =
      ((createdSegs noFs (split_path "/mnt/data".data) false).map (provCmds stdSession)).flatten) :=
  ⟨fun _ => rfl,
   (provisioning_walk_order stdSession noFs "/mnt/data".data (fun _ => rfl)).1,
   (provisioning_walk_order stdSession noFs "/mnt/data".data (fun _ => rfl)).2.1⟩

/-- Claim C10: the per-segment existence decision reads only the local
filesystem predicate, never the session: over all-success sessions the set of
directory-creation commands is the same for any two sessions (it is
`createdSegs`, computed from `fs` alone), and every command the loop ever
issues is a creation, name-query or ownership command for a created segment —
no command interrogates the existence of a segment. -/
theorem provisioning_frame (s1 s2 : Session) (fs : List Char → Bool)
    (segs : List (List Char)) (nc : Bool)
    (h1 : ok_session s1) (h2 : ok_session s2) :
    ((provision_loop s1 fs segs nc).cmds.filter is_mkdir_cmd
      = (provision_loop s2 fs segs nc).cmds.filter is_mkdir_cmd) ∧
    ((provision_loop s1 fs segs nc).cmds.filter is_mkdir_cmd
      = (createdSegs fs segs nc).map mkdirCmd) ∧
    ((provision_loop s1 fs segs nc).cmds.all
      (fun c => c == idnuCmd || c == idngCmd ||
        (createdSegs fs segs nc).any (fun s => c == mkdirCmd s ||
          c == chownCmd (trim_end (s1 idnuCmd).stdout) (trim_end (s1 idngCmd).stdout) s))
      = true) := by
  have e1 : (provision_loop s1 fs segs nc).cmds =
      ((createdSegs fs segs nc).map (provCmds s1)).flatten := by
    rw [provision_loop_ok s1 fs h1]
  have e2 : (provision_loop s2 fs segs nc).cmds =
      ((createdSegs fs segs nc).map (provCmds s2)).flatten := by
    rw [provision_loop_ok s2 fs h2]
  refine ⟨?_, ?_, ?_⟩
  · rw [e1, e2, filter_mkdir_flatten, filter_mkdir_flatten]
  · rw [e1, filter_mkdir_flatten]
  · rw [e1, List.all_eq_true]
    intro c hc
    rcases List.mem_flatten.mp hc with ⟨block, hb, hcb⟩
    rcases List.mem_map.mp hb with ⟨s, hs, rfl⟩
    rcases List.mem_cons.mp hcb with h | hcb
    · subst h
      simp only [Bool.or_eq_true, List.any_eq_true, beq_iff_eq]
      exact Or.inr ⟨s, hs, Or.inl rfl⟩
    rcases List.mem_cons.mp hcb with h | hcb
    · subst h
      simp
    rcases List.mem_cons.mp hcb with h | hcb
    · subst h
      simp
    rcases List.mem_cons.mp hcb with h | hcb
    · subst h
      simp only [Bool.or_eq_true, List.any_eq_true, beq_iff_eq]
      exact Or.inr ⟨s, hs, Or.inr rfl⟩
    · exact absurd hcb (by simp)

/-- Claim C10 witness: two different all-success sessions over the same local
filesystem issue the same creation commands on `/mnt/data`. -/
theorem provisioning_frame_witness :
    ok_session stdSession ∧ ok_session altSession ∧
    ((provision_loop stdSession mntFs (split_path "/mnt/data".data) false).cmds.filter
        is_mkdir_cmd
      = (provision_loop altSession mntFs (split_path "/mnt/data".data) false).cmds.filter
        is_mkdir_cmd) ∧
    ((provision_loop stdSession mntFs (split_path "/mnt/data".data) false).cmds.filter
        is_mkdir_cmd
      = (createdSegs mntFs (split_path "/mnt/data".data) false).map mkdirCmd) ∧
    ((provision_loop stdSession mntFs (split_path "/mnt/data".data) false).cmds.all
      (fun c => c == idnuCmd || c == idngCmd ||
        (createdSegs mntFs (split_path "/mnt/data".data) false).any (fun s => c == mkdirCmd s ||
          c == chownCmd (trim_end (stdSession idnuCmd).stdout)
            (trim_end (stdSession idngCmd).stdout) s))
      = true) :=
  ⟨fun _ => rfl, fun _ => rfl,
   (provisioning_frame stdSession altSession mntFs (split_path "/mnt/data".data) false
     (fun _ => rfl) (fun _ => rfl)).1,
   (provisioning_frame stdSession altSession mntFs (split_path "/mnt/data".data) false
     (fun _ => rfl) (fun _ => rfl)).2.1,
   (provisioning_frame stdSession altSession mntFs (split_path "/mnt/data".data) false
     (fun _ => rfl) (fun _ => rfl)).2.2⟩

/-- Claim C7 (amended): the default identity pair is resolved exactly once
per bridge construction — `id -u` and `id -g` each appear exactly once in the
trace — and only after provisioning completes (they follow every provisioning
command); the resolved pair is passed to the protocol server; the
ownership-change commands issued during provisioning instead use user/group
names freshly queried via `id -nu`/`id -ng` once per created segment. -/
theorem default_identity_resolution (session : Session) (fs : List Char → Bool)
    (source target : List Char) (gid_map uid_map : List (Int × Int)) (du dg : Int)
    (hok : ok_session session)
    (hu : stoi (session iduCmd).stdout = .ok du)
    (hg : stoi (session idgCmd).stdout = .ok dg) :
    ((make_sftp_server session fs source target gid_map uid_map).cmds =
      whichCmd :: ((createdSegs fs (split_path target) false).map (provCmds session)).flatten
        ++ [iduCmd, idgCmd]) ∧
    ((make_sftp_server session fs source target gid_map uid_map).res =
      .ok ⟨source, target, gid_map, uid_map, du, dg⟩) ∧
    (iduCmd ∉ ((createdSegs fs (split_path target) false).map (provCmds session)).flatten) ∧
    (idgCmd ∉ ((createdSegs fs (split_path target) false).map (provCmds session)).flatten) := by
  have e := make_sftp_server_ok session fs source target gid_map uid_map du dg hok hu hg
  exact ⟨by rw [e], by rw [e], idu_not_mem_flatten session _, idg_not_mem_flatten session _⟩

/-- Claim C7 witness: concrete resolution with uid 1000, gid 1001. -/
theorem default_identity_resolution_witness :
    ok_session stdSession ∧
    stoi (stdSession iduCmd).stdout = .ok 1000 ∧
    stoi (stdSession idgCmd).stdout = .ok 1001 ∧
    ((make_sftp_server stdSession noFs "src".data "/a".data [] []).cmds =
      whichCmd :: ((createdSegs noFs (split_path "/a".data) false).map (provCmds stdSession)).flatten
        ++ [iduCmd, idgCmd]) ∧
    ((make_sftp_server stdSession noFs "src".data "/a".data [] []).res =
      .ok ⟨"src".data, "/a".data, [], [], 1000, 1001⟩) ∧
    (iduCmd ∉ ((createdSegs noFs (split_path "/a".data) false).map (provCmds stdSession)).flatten) ∧
    (idgCmd ∉ ((createdSegs noFs (split_path "/a".data) false).map (provCmds stdSession)).flatten) :=
  ⟨fun _ => rfl, by decide, by decide,
   (default_identity_resolution stdSession noFs "src".data "/a".data [] [] 1000 1001
     (fun _ => rfl) (by decide) (by decide)).1,
   (default_identity_resolution stdSession noFs "src".data "/a".data [] [] 1000 1001
     (fun _ => rfl) (by decide) (by decide)).2.1,
   (default_identity_resolution stdSession noFs "src".data "/a".data [] [] 1000 1001
     (fun _ => rfl) (by decide) (by decide)).2.2.1,
   (default_identity_resolution stdSession noFs "src".data "/a".data [] [] 1000 1001
     (fun _ => rfl) (by decide) (by decide)).2.2.2⟩

/-- Claim C7 counterexample: at a concrete bridge construction the resolved
default identity is (1000, 1001), yet the ownership change issued during
provisioning is `sudo chown ubuntu:ubuntu "/a"` — the command that would use
the once-resolved identity, `sudo chown 1000:1001 "/a"`, is never issued, and
the `id -u` resolution runs only after the ownership change. -/
theorem default_identity_ownership_counterexample :
    (make_sftp_server stdSession noFs "src".data "/a".data [] []).res =
      .ok ⟨"src".data, "/a".data, [], [], 1000, 1001⟩ ∧
    (make_sftp_server stdSession noFs "src".data "/a".data [] []).cmds =
      [whichCmd, mkdirCmd "/a".data, idnuCmd, idngCmd,
       chownCmd "ubuntu".data "ubuntu".data "/a".data, iduCmd, idgCmd] ∧
    chownCmd "1000".data "1001".data "/a".data ∉
      (make_sftp_server stdSession noFs "src".data "/a".data [] []).cmds :=
  ⟨by decide, by decide, by decide⟩

theorem isspace_not_digit (c : Char) (h : isspace c = true) : c.isDigit = false := by
  unfold isspace at h
  simp only [Bool.or_eq_true, beq_iff_eq] at h
  rcases h with ((((h | h) | h) | h) | h) | h <;> subst h <;> decide

theorem digit_not_space (c : Char) (h : c.isDigit = true) : isspace c = false := by
  cases hs : isspace c
  · rfl
  · rw [isspace_not_digit c hs] at h
    exact Bool.noConfusion h

theorem digit_ne_dash (c : Char) (h : c.isDigit = true) : c ≠ '-' := by
  intro hc
  subst hc
  exact absurd h (by decide)

theorem digit_ne_plus (c : Char) (h : c.isDigit = true) : c ≠ '+' := by
  intro hc
  subst hc
  exact absurd h (by decide)

theorem takeWhile_digits_append : ∀ (ds ws : List Char),
    (∀ c ∈ ds, c.isDigit = true) → (∀ c ∈ ws, isspace c = true) →
    (ds ++ ws).takeWhile Char.isDigit = ds
  | [], ws, _, hws => by
    cases ws with
    | nil => rfl
    | cons w ws =>
      simp [List.takeWhile_cons, isspace_not_digit w (hws w (List.mem_cons_self w ws))]
  | d :: ds, ws, hds, hws => by
    rw [List.cons_append, List.takeWhile_cons, hds d (List.mem_cons_self d ds)]
    simp [takeWhile_digits_append ds ws (fun c hc => hds c (List.mem_cons_of_mem d hc)) hws]

theorem stoi_digits_trailing (ds ws : List Char) (hne : ds ≠ [])
    (hds : ∀ c ∈ ds, c.isDigit = true) (hws : ∀ c ∈ ws, isspace c = true) :
    stoi (ds ++ ws) = .ok ((digitsToNat ds : Nat) : Int) := by
  obtain ⟨d, ds', rfl⟩ := List.exists_cons_of_ne_nil hne
  have hd : d.isDigit = true := hds d (List.mem_cons_self d ds')
  have hdrop : ((d :: ds') ++ ws).dropWhile isspace = d :: (ds' ++ ws) := by
    rw [List.cons_append, List.dropWhile_cons]
    simp [digit_not_space d hd]
  have htake : ((d :: ds') ++ ws).takeWhile Char.isDigit = d :: ds' :=
    takeWhile_digits_append (d :: ds') ws hds hws
  rw [List.cons_append] at htake
  have hsign : ¬(d = '-' ∨ d = '+') := by
    rintro (h | h)
    · exact digit_ne_dash d hd h
    · exact digit_ne_plus d hd h
  unfold stoi
  rw [hdrop]
  simp only [List.head?_cons, Option.some.injEq]
  rw [if_neg hsign]
  rw [htake]
  rw [if_neg (show ¬(d :: ds' = []) from by simp)]
  rw [if_neg (digit_ne_dash d hd)]

/-- Claim C6: default-identity resolution tolerates trailing whitespace after
the digits (a digit string followed by whitespace parses to its decimal
value), so `"1000\n"` resolves to the integer 1000; a non-numeric output such
as `"abc"` is a fatal parse error, and with such an `id -u` output bridge
construction fails with that error, issuing no further command (no retry). -/
theorem identity_parse (session : Session) (fs : List Char → Bool)
    (source target : List Char) (gid_map uid_map : List (Int × Int)) (ds ws : List Char)
    (hok : ok_session session)
    (habc : (session iduCmd).stdout = "abc".data)
    (hne : ds ≠ []) (hds : ∀ c ∈ ds, c.isDigit = true) (hws : ∀ c ∈ ws, isspace c = true) :
    stoi (ds ++ ws) = .ok ((digitsToNat ds : Nat) : Int) ∧
    stoi "1000\n".data = .ok 1000 ∧
    stoi "abc".data = .error .InvalidArgument ∧
    (make_sftp_server session fs source target gid_map uid_map).res = .error .InvalidArgument ∧
    ((make_sftp_server session fs source target gid_map uid_map).cmds =
      whichCmd :: ((createdSegs fs (split_path target) false).map (provCmds session)).flatten
        ++ [iduCmd]) := by
  have he : stoi (session iduCmd).stdout = .error .InvalidArgument := by
    rw [habc]
    decide
  have e := make_sftp_server_uid_fail session fs source target gid_map uid_map
    .InvalidArgument hok he
  exact ⟨stoi_digits_trailing ds ws hne hds hws, by decide, by decide, by rw [e], by rw [e]⟩

/-- Claim C6 witness: `"1000\n"` resolves to 1000; a session answering `abc`
to `id -u` aborts construction with the parse error right after `id -u`. -/
theorem identity_parse_witness :
    ok_session badIdSession ∧
    (badIdSession iduCmd).stdout = "abc".data ∧
    "1000".data ≠ ([] : List Char) ∧
    (∀ c ∈ "1000".data, c.isDigit = true) ∧
    (∀ c ∈ "\n".data, isspace c = true) ∧
    stoi ("1000".data ++ "\n".data) = .ok ((digitsToNat "1000".data : Nat) : Int) ∧
    stoi "1000\n".data = .ok 1000 ∧
    stoi "abc".data = .error .InvalidArgument ∧
    (make_sftp_server badIdSession allFs "src".data "/a".data [] []).res =
      .error .InvalidArgument ∧
    ((make_sftp_server badIdSession allFs "src".data "/a".data [] []).cmds =
      whichCmd :: ((createdSegs allFs (split_path "/a".data) false).map
        (provCmds badIdSession)).flatten ++ [iduCmd]) :=
  ⟨fun _ => rfl, rfl, by decide, by decide, by decide,
   (identity_parse badIdSession allFs "src".data "/a".data [] [] "1000".data "\n".data
     (fun _ => rfl) rfl (by decide) (by decide) (by decide)).1,
   (identity_parse badIdSession allFs "src".data "/a".data [] [] "1000".data "\n".data
     (fun _ => rfl) rfl (by decide) (by decide) (by decide)).2.1,
   (identity_parse badIdSession allFs "src".data "/a".data [] [] "1000".data "\n".data
     (fun _ => rfl) rfl (by decide) (by decide) (by decide)).2.2.1,
   (identity_parse badIdSession allFs "src".data "/a".data [] [] "1000".data "\n".data
     (fun _ => rfl) rfl (by decide) (by decide) (by decide)).2.2.2.1,
   (identity_parse badIdSession allFs "src".data "/a".data [] [] "1000".data "\n".data
     (fun _ => rfl) rfl (by decide) (by decide) (by decide)).2.2.2.2⟩
